import Mathlib

/-!
Verification of the Catalogue Enrichment Engine.

This file gives a shallow embedding of the enrichment scripts of the
repository — `update_descriptions.py` (the primary engine),
`FillMissingData.py` (the field reconciler / fill logic) and the legacy
`UpdateDescriptions.py` (the wait-and-retry loop and its argument
handling) — and proves or refutes the specification's claims about them.

Modelling conventions:
- a catalogue entry is a `Plugin` record of optional string fields;
- the network is an oracle `net : Nat → Response` giving the response to
  the i-th metadata fetch issued by the process; the engine state records
  the number of fetches issued, the request keys issued (for the
  at-most-one-fetch property) and the total seconds slept in rate-limit
  cooldowns;
- a Python `raise` that escapes the engine is the `crashed` run exit; the
  `RateLimitedException` caught by the driver loop is the `haltedAt` exit;
- a response body is `unparseable` (Python's `.json()` raises) or
  `parsed falsy description` (`falsy` is Python truthiness of the parsed
  value; `description` is the value at the "description" key, if any).
-/

/-! ## String helpers (structural, kernel-evaluable) -/

/-- Test whether `pat` is a leading segment of `l`. -/
def matchesHead (pat l : List Char) : Bool :=
  match pat, l with
  | [], _ => true
  | _ :: _, [] => false
  | p :: ps, x :: xs => p == x && matchesHead ps xs

/-- Test whether `pat` occurs as a contiguous segment of the list. -/
def containsSub (pat : List Char) : List Char → Bool
  | [] => matchesHead pat []
  | x :: xs => matchesHead pat (x :: xs) || containsSub pat xs

/-- Python's `pat in s` substring test. -/
def containsSubstr (s pat : String) : Bool :=
  containsSub pat.data s.data

/-- Python's `s.lower()` (ASCII). -/
def toLowerStr (s : String) : String :=
  ⟨s.data.map Char.toLower⟩

/-- Python's `s.startswith(pat)`. -/
def strStartsWith (s pat : String) : Bool :=
  matchesHead pat.data s.data

/-- Split a character list at every occurrence of the separator `c`. -/
def splitOnChar (c : Char) : List Char → List (List Char)
  | [] => [[]]
  | x :: xs =>
    let r := splitOnChar c xs
    if x == c then [] :: r
    else
      match r with
      | [] => [[x]]
      | y :: ys => (x :: y) :: ys

/-- Python's `"/".join(parts)`. -/
def joinSlash : List (List Char) → List Char
  | [] => []
  | [x] => x
  | x :: y :: ys => x ++ '/' :: joinSlash (y :: ys)

/-- The characters after the first `://`, if the URL has a scheme. -/
def afterScheme : List Char → Option (List Char)
  | [] => none
  | ':' :: '/' :: '/' :: rest => some rest
  | _ :: rest => afterScheme rest

/-- The path component `urlparse(url).path` for the URLs the catalogue holds: for a
`scheme://netloc/path` URL the netloc ends at the first `/` after the
scheme, and the path is from that `/` on; a scheme-less string is all
path. -/
def urlPathChars (l : List Char) : List Char :=
  match afterScheme l with
  | some rest => rest.dropWhile (fun c => !(c == '/'))
  | none => l

/-- Python's `s.strip("/")`. -/
def stripSlashChars (l : List Char) : List Char :=
  ((l.dropWhile (fun c => c == '/')).reverse.dropWhile (fun c => c == '/')).reverse

/-- The owner/repo request key
`"/".join(urlparse(repo_url).path.strip("/").split("/")[:2])` derived from the repository URL
(`update_descriptions.py` line 62, `FillMissingData.py` line 86). -/
def ownerRepoOf (url : String) : String :=
  ⟨joinSlash ((splitOnChar '/' (stripSlashChars (urlPathChars url.data))).take 2)⟩

/-- Decide `if not repo_url or "github.com" not in repo_url` — the entry
has no usable repository reference (`update_descriptions.py` line 56,
`FillMissingData.py` line 73). -/
def repoInvalid (r : Option String) : Bool :=
  match r with
  | none => true
  | some url => url == "" || !(containsSubstr url "github.com")

/-! ## Data model and the engine of `update_descriptions.py` -/

/-- A catalogue entry: the JSON fields the enrichment scripts read or
write. An absent key is `none`. -/
structure Plugin where
  repository : Option String
  name : Option String
  author : Option String
  description : Option String
  download_url : Option String
deriving DecidableEq, Repr

/-- The five global run counters of `update_descriptions.py`. -/
structure Stats where
  failed : Nat
  invalid_repo : Nat
  performed : Nat
  skipped : Nat
  succeeded : Nat
deriving DecidableEq, Repr

/-- The flags `skip_update` and `wait_on_rate_limit` set from the
command line. -/
structure Config where
  skip_update : Bool
  wait_on_rate_limit : Bool
deriving DecidableEq, Repr

/-- The body of a metadata response: `unparseable` means `.json()`
raises; `parsed falsy description` is a parsed JSON value, `falsy` its
Python truthiness, `description` the value of its "description" key. -/
inductive Body where
  | unparseable : Body
  | parsed (falsy : Bool) (description : Option String) : Body
deriving DecidableEq, Repr

/-- A metadata-endpoint response. -/
structure Response where
  status_code : Nat
  body : Body
deriving DecidableEq, Repr

/-- Outcome of `update_description` for one entry: `noChange` is a plain
`return` (skip / invalid repo / recorded failure), `updated` returns the
mutated entry, `rateLimited` raises `RateLimitedException`, `parseError`
is an uncaught `.json()` decode exception. -/
inductive UpdateResult where
  | noChange : UpdateResult
  | updated (p : Plugin) : UpdateResult
  | rateLimited : UpdateResult
  | parseError : UpdateResult
deriving DecidableEq, Repr

/-- How a whole run ends: `completed` (loop exhausted), `haltedAt id`
(rate-limit abort caught at `id`), `crashed` (an exception escaped the
engine). -/
inductive RunExit where
  | completed : RunExit
  | haltedAt (id : String) : RunExit
  | crashed : RunExit
deriving DecidableEq, Repr

/-- Engine process state: counters, number of metadata fetches issued so
far, total cooldown seconds slept, and the log of issued request keys. -/
structure EngineState where
  stats : Stats
  calls : Nat
  waitSeconds : Nat
  reqs : List String
deriving DecidableEq, Repr

/-- Issue one metadata fetch for key `key`: consume the next oracle
response and log the request. -/
def doFetch (net : Nat → Response) (key : String) (s : EngineState) :
    Response × EngineState :=
  (net s.calls, { s with calls := s.calls + 1, reqs := s.reqs ++ [key] })

/-- Model of `update_description(id, plugin)` of `update_descriptions.py`
(lines 41–92), with the global counters threaded through explicitly. -/
def update_description (cfg : Config) (net : Nat → Response) (plugin : Plugin)
    (s : EngineState) : UpdateResult × EngineState :=
  let s := { s with stats := { s.stats with performed := s.stats.performed + 1 } }
  if cfg.skip_update && plugin.description.isSome then
    (.noChange, { s with stats := { s.stats with skipped := s.stats.skipped + 1 } })
  else if repoInvalid plugin.repository then
    (.noChange, { s with stats := { s.stats with invalid_repo := s.stats.invalid_repo + 1 } })
  else
    let owner_repo := ownerRepoOf (plugin.repository.getD "")
    let fetched := doFetch net owner_repo s
    let retried :=
      if fetched.1.status_code == 403 && cfg.wait_on_rate_limit then
        doFetch net owner_repo
          { fetched.2 with waitSeconds := fetched.2.waitSeconds + 300 }
      else fetched
    let r := retried.1
    let s := retried.2
    if r.status_code < 200 || 300 ≤ r.status_code then
      let s := { s with stats := { s.stats with failed := s.stats.failed + 1 } }
      if r.status_code == 403 then (.rateLimited, s) else (.noChange, s)
    else
      match r.body with
      | .unparseable => (.parseError, s)
      | .parsed falsy desc =>
        if falsy then
          (.noChange, { s with stats := { s.stats with failed := s.stats.failed + 1 } })
        else
          (.updated { plugin with description := some (desc.getD "") },
           { s with stats := { s.stats with succeeded := s.stats.succeeded + 1 } })

/-- The catalogue in memory: an insertion-ordered association list, as a
Python dict is. -/
abbrev Store := List (String × Plugin)

/-- Assignment `data[id] = updated` for an existing key: replace in place, order
preserved. -/
def storeSet (st : Store) (id : String) (p : Plugin) : Store :=
  st.map (fun kv => if kv.1 == id then (kv.1, p) else kv)

/-- Model of `update_descriptions(data, ids)` of `update_descriptions.py`
(lines 95–110): iterate the ids, catching only `RateLimitedException`
(halt and keep partial progress); any other exception escapes
(`crashed`). A missing id (`data[id]` KeyError) also crashes. -/
def update_descriptions (cfg : Config) (net : Nat → Response) :
    List String → Store → EngineState → Store × EngineState × RunExit
  | [], store, s => (store, s, .completed)
  | id :: rest, store, s =>
    match store.lookup id with
    | none => (store, s, .crashed)
    | some p =>
      match update_description cfg net p s with
      | (.noChange, s') => update_descriptions cfg net rest store s'
      | (.updated q, s') => update_descriptions cfg net rest (storeSet store id q) s'
      | (.rateLimited, s') => (store, s', .haltedAt id)
      | (.parseError, s') => (store, s', .crashed)

/-- Counters at process start. -/
def initStats : Stats := ⟨0, 0, 0, 0, 0⟩

/-- Engine state at process start. -/
def initState : EngineState := ⟨initStats, 0, 0, []⟩

/-- Sum of the four outcome buckets. -/
def statsTotal (st : Stats) : Nat :=
  st.skipped + st.invalid_repo + st.failed + st.succeeded

/-- The final report's `(succeeded + skipped) / performed * 100`
(`update_descriptions.py` line 169): Python true division raises
`ZeroDivisionError` when `performed = 0`, modelled as `none`. -/
def summary_ratio (st : Stats) : Option ℚ :=
  if st.performed = 0 then none
  else some (((st.succeeded : ℚ) + st.skipped) / st.performed * 100)

/-! ## RunSelector: the argument loop of `update_descriptions.py` `main` -/

/-- Result of resolving the run: either a run over an ordered id
sequence, or an input error (`exit(1)` before any run and before the
catalogue is rewritten). -/
inductive SelectorResult where
  | run (cfg : Config) (ids : List String) : SelectorResult
  | inputError (msg : String) : SelectorResult
deriving DecidableEq, Repr

/-- The argument loop of `update_descriptions.py` `main` (lines 131–145),
threading `skip_update`, `wait_on_rate_limit`, `start_from` and the
accumulated `ids`; an unrecognised argument is `exit(1)` (`none`). -/
def parse_args (all_ids : List String) :
    List String → Bool → Bool → Bool → List String →
    Option (Bool × Bool × Bool × List String)
  | [], su, w, sf, ids => some (su, w, sf, ids)
  | arg :: rest, su, w, sf, ids =>
    if toLowerStr arg == "--skip-update" then
      parse_args all_ids rest true w sf ids
    else if toLowerStr arg == "--wait-on-rate-limit" then
      parse_args all_ids rest su true sf ids
    else if toLowerStr arg == "--start-from" then
      parse_args all_ids rest su w true ids
    else if all_ids.contains arg then
      if sf then
        parse_args all_ids rest su w sf (all_ids.drop (all_ids.findIdx (fun a => a == arg)))
      else
        parse_args all_ids rest su w sf (ids ++ [arg])
    else none

/-- Selection of the run by `main` (lines 131–151): parse the arguments,
then `if len(ids) == 0`: with `start_from` set this is the
"No plugins to be updated" input error, otherwise the run covers all
identifiers in store order. -/
def select_ids (all_ids : List String) (args : List String) : SelectorResult :=
  match parse_args all_ids args false false false [] with
  | none => .inputError "Unrecognised argument"
  | some (su, w, sf, ids) =>
    if ids.isEmpty then
      if sf then .inputError "No plugins to be updated"
      else .run ⟨su, w⟩ all_ids
    else .run ⟨su, w⟩ ids

/-! ## Legacy variant `UpdateDescriptions.py` -/

/-- The rate-limit retry loop of `UpdateDescriptions.py`
`UpdateDescription` (lines 62–85), abstracted over the sequence of
status codes the endpoint returns to the successive re-issues of the
identical request. Returns the status that exits the loop (none if the
given trace never exits it) and the number of 300-second waits
performed. Without `waitOnRateLimit` a 403 exits the loop at once
(`failed += 1; return 403`); with it, every 403 sleeps 300 seconds and
re-issues the request. -/
def legacy_retry (waitOnRateLimit : Bool) : List Nat → Option Nat × Nat
  | [] => (none, 0)
  | c :: rest =>
    if c == 403 && waitOnRateLimit then
      let r := legacy_retry waitOnRateLimit rest
      (r.1, r.2 + 1)
    else (some c, 0)

/-- What a `UpdateDescriptions.py` `main` invocation does before the
final write: `earlyReturn` for `--help` or an unknown flag, otherwise
the ordered sequence of identifiers the run processes. -/
inductive LegacyOutcome where
  | earlyReturn : LegacyOutcome
  | plan (processed : List String) : LegacyOutcome
deriving DecidableEq, Repr

/-- The argument loop of `UpdateDescriptions.py` `main` (lines 155–203):
flags, `--start-from`, unknown dashed arguments (early return), known
identifiers (processed inside the loop), and — the final `elif` chain
having no `else` — any other argument is silently ignored. `ua` is
`updateAll`, `sf` is `startFrom`, `acc` the identifiers already
processed inside the loop; when the loop ends with `updateAll` still
set, a full run over all keys follows. -/
def legacy_plan (keys : List String) :
    List String → Bool → Bool → List String → LegacyOutcome
  | [], ua, _, acc => .plan (acc ++ if ua then keys else [])
  | arg :: rest, ua, sf, acc =>
    if arg == "--help" || arg == "-h" then .earlyReturn
    else if arg == "--skip-update" then legacy_plan keys rest ua sf acc
    else if arg == "--wait-on-rate-limit" then legacy_plan keys rest ua sf acc
    else if arg == "--log" then legacy_plan keys rest ua sf acc
    else if strStartsWith arg "--start-from" then legacy_plan keys rest ua true acc
    else if strStartsWith arg "--" || strStartsWith arg "-" then .earlyReturn
    else if keys.contains arg then
      if sf then
        legacy_plan keys rest false false
          (acc ++ keys.drop (keys.findIdx (fun a => a == arg)))
      else legacy_plan keys rest false sf (acc ++ [arg])
    else legacy_plan keys rest ua sf acc

/-! ## `FillMissingData.py` -/

/-- Python `str.title()` over ASCII: the first alphabetic character of
every alphabetic run is uppercased, the rest lowercased. The
accumulator's flag is "previous character was alphabetic". -/
def titleCaseChars : List Char → Bool → List Char
  | [], _ => []
  | c :: cs, prevAlpha =>
    if c.isAlpha then
      (if prevAlpha then c.toLower else c.toUpper) :: titleCaseChars cs true
    else c :: titleCaseChars cs false

/-- Model of `format_name` of `FillMissingData.py` (lines 21–26): lowercase,
strip a leading `streamdeck-`/`streamdeck_`, turn `-`/`_` into spaces,
title-case. -/
def format_name (repo_name : String) : String :=
  let base := (toLowerStr repo_name).data
  let base :=
    if matchesHead "streamdeck-".data base || matchesHead "streamdeck_".data base then
      base.drop 11
    else base
  let base := base.map (fun c => if c == '-' || c == '_' then ' ' else c)
  ⟨titleCaseChars base false⟩

/-- The parsed repository JSON consumed by `fill_missing_fields`:
`falsy` is Python truthiness of the parsed value, the other fields the
keys it reads. -/
structure RepoInfoJson where
  falsy : Bool
  name : String
  owner_login : String
  description : Option String
deriving DecidableEq, Repr

/-- What `get_repo_info` of `FillMissingData.py` yields: an unparseable
body (`.json()` raises), the JSON value `null` (Python `None`), or a
parsed value. -/
inductive FMFetch where
  | unparseable : FMFetch
  | null : FMFetch
  | info (i : RepoInfoJson) : FMFetch
deriving DecidableEq, Repr

/-- Result of one `fill_missing_fields` loop iteration for one record:
unchanged (`continue` before or after the fetch), updated in place, or an
uncaught exception (which aborts the whole script). -/
inductive FMResult where
  | unchanged : FMResult
  | updated (p : Plugin) : FMResult
  | crashed : FMResult
deriving DecidableEq, Repr

/-- One iteration of the `fill_missing_fields` loop of
`FillMissingData.py` (lines 70–112), for one record. `netRepo` is what
`get_repo_info` returns, `dlUrl` what `find_download_url` returns,
`iconExists` whether `icons/<key>.png` exists. The second component is
whether a metadata fetch was issued for this record. `FMFetch.null`
crashes because line 90 evaluates `repo_info.get(...)` on `None`
(short-circuit of `and` with `repo_info is None` true); `unparseable`
crashes inside `.json()`. -/
def fill_missing_one (netRepo : FMFetch) (dlUrl : Option String)
    (iconExists : Bool) (p : Plugin) : FMResult × Bool :=
  if repoInvalid p.repository then (.unchanged, false)
  else
    let missing_name := p.name.isNone
    let missing_author := p.author.isNone
    let missing_download := p.download_url.isNone
    let missing_description := p.description.isNone
    let missing_icon := !iconExists
    if !(missing_name || missing_author || missing_download || missing_icon || missing_description) then
      (.unchanged, false)
    else
      match netRepo with
      | .unparseable => (.crashed, true)
      | .null => (.crashed, true)
      | .info i =>
        if i.falsy then (.unchanged, true)
        else
          let p := if missing_name then { p with name := some (format_name i.name) } else p
          let p := if missing_author then { p with author := some i.owner_login } else p
          let p :=
            if missing_download then
              match dlUrl with
              | some u => { p with download_url := some u }
              | none => p
            else p
          let p :=
            if p.description.isNone then
              { p with description := some (i.description.getD "") }
            else p
          (.updated p, true)

/-- Modelled from the spec: the needs-fetch predicate exactly as §4.1
states it — "a record needs a fetch if it has a usable repository
reference and (name absent OR author absent OR description absent OR
force-refresh requested OR icon asset absent)". Used to compare the
spec's decision rule with the one the code implements. -/
def spec_needs_fetch (forceRefresh iconExists : Bool) (p : Plugin) : Bool :=
  !repoInvalid p.repository &&
    (p.name.isNone || p.author.isNone || p.description.isNone || forceRefresh || !iconExists)

/-! ## Concrete scenario material used by witnesses and counterexamples -/

/-- Entry `a`: a GitHub repository, everything else absent. -/
def exPlugA : Plugin := ⟨some "https://github.com/x/a", none, none, none, none⟩

/-- Entry `b`: a GitHub repository, everything else absent. -/
def exPlugB : Plugin := ⟨some "https://github.com/x/b", none, none, none, none⟩

/-- Entry `c`: a GitHub repository, everything else absent. -/
def exPlugC : Plugin := ⟨some "https://github.com/x/c", none, none, none, none⟩

/-- A three-entry store in insertion order `a, b, c`. -/
def exStore : Store := [("a", exPlugA), ("b", exPlugB), ("c", exPlugC)]

/-- Endpoint trace: first fetch succeeds with a description, every later
fetch is rate-limited. -/
def exNet : Nat → Response := fun n =>
  if n = 0 then ⟨200, .parsed false (some "d")⟩ else ⟨403, .parsed true none⟩

/-- Endpoint trace that rate-limits every fetch. -/
def exNet403 : Nat → Response := fun _ => ⟨403, .parsed true none⟩

/-- Endpoint trace: plain not-found failure on every fetch. -/
def exNet404 : Nat → Response := fun _ => ⟨404, .parsed true none⟩

/-- Endpoint trace: success status but a body that is not valid JSON. -/
def exNetBadBody : Nat → Response := fun _ => ⟨200, .unparseable⟩

/-- Entry with a description already present and no repository field. -/
def exPlugDesc : Plugin := ⟨none, none, none, some "d", none⟩

/-- Entry with every metadata field present except `download_url`. -/
def exPlugFull : Plugin := ⟨some "https://github.com/x/y", some "N", some "A", some "D", none⟩

/-- Entry with every metadata field present, `download_url` included. -/
def exPlugAll : Plugin :=
  ⟨some "https://github.com/x/y", some "N", some "A", some "D", some "U"⟩

/-! ## Shared helper lemmas -/

theorem ud_counts (cfg : Config) (net : Nat → Response) (p : Plugin) (s : EngineState) :
    ((update_description cfg net p s).2).stats.performed = s.stats.performed + 1 ∧
    ((update_description cfg net p s).1 ≠ .parseError →
      statsTotal ((update_description cfg net p s).2).stats = statsTotal s.stats + 1) ∧
    ((update_description cfg net p s).1 = .parseError →
      statsTotal ((update_description cfg net p s).2).stats = statsTotal s.stats) ∧
    ((update_description cfg net p s).1 = .rateLimited →
      ((update_description cfg net p s).2).stats.failed = s.stats.failed + 1 ∧
      ((update_description cfg net p s).2).stats.succeeded = s.stats.succeeded) := by
  unfold update_description doFetch
  dsimp only
  repeat' split
  all_goals simp_all [statsTotal]
  all_goals omega

theorem run_counts (cfg : Config) (net : Nat → Response) :
    ∀ (ids : List String) (store : Store) (s : EngineState) (store' : Store)
      (s' : EngineState) (e : RunExit),
      update_descriptions cfg net ids store s = (store', s', e) →
      e ≠ .crashed →
      s.stats.performed = statsTotal s.stats →
      s'.stats.performed = statsTotal s'.stats := by
  intro ids
  induction ids with
  | nil =>
    intro store s store' s' e h _ hbal
    simp only [update_descriptions, Prod.mk.injEq] at h
    obtain ⟨-, h2, -⟩ := h
    subst h2
    exact hbal
  | cons id rest ih =>
    intro store s store' s' e h hnc hbal
    unfold update_descriptions at h
    cases hl : store.lookup id with
    | none =>
      rw [hl] at h
      simp only [Prod.mk.injEq] at h
      obtain ⟨-, -, he⟩ := h
      exact absurd he.symm hnc
    | some p =>
      rw [hl] at h
      dsimp only at h
      rcases hu : update_description cfg net p s with ⟨r, s1⟩
      rw [hu] at h
      have c := ud_counts cfg net p s
      rw [hu] at c
      dsimp only at c
      cases r with
      | noChange =>
        refine ih store s1 store' s' e h hnc ?_
        have := c.2.1 (by simp)
        omega
      | updated q =>
        refine ih _ s1 store' s' e h hnc ?_
        have := c.2.1 (by simp)
        omega
      | rateLimited =>
        simp only [Prod.mk.injEq] at h
        obtain ⟨-, hs, -⟩ := h
        subst hs
        have := c.2.1 (by simp)
        omega
      | parseError =>
        simp only [Prod.mk.injEq] at h
        obtain ⟨-, -, he⟩ := h
        exact absurd he.symm hnc

theorem run_halt_decomp (cfg : Config) (net : Nat → Response) :
    ∀ (ids : List String) (store store' : Store) (s s'' : EngineState) (hid : String),
      update_descriptions cfg net ids store s = (store', s'', .haltedAt hid) →
      ∃ (k : Nat) (hk : k < ids.length) (s' : EngineState) (p : Plugin),
        hid = ids.get ⟨k, hk⟩ ∧
        update_descriptions cfg net (ids.take k) store s = (store', s', .completed) ∧
        store'.lookup hid = some p ∧
        update_description cfg net p s' = (.rateLimited, s'') := by
  intro ids
  induction ids with
  | nil =>
    intro store store' s s'' hid h
    simp only [update_descriptions, Prod.mk.injEq] at h
    exact absurd h.2.2 (by simp)
  | cons id rest ih =>
    intro store store' s s'' hid h
    unfold update_descriptions at h
    cases hl : store.lookup id with
    | none =>
      rw [hl] at h
      simp only [Prod.mk.injEq] at h
      exact absurd h.2.2 (by simp)
    | some p =>
      rw [hl] at h
      dsimp only at h
      rcases hu : update_description cfg net p s with ⟨r, s1⟩
      rw [hu] at h
      cases r with
      | noChange =>
        obtain ⟨k, hk, s', p', hget, hrun, hlook, hstep⟩ := ih store store' s1 s'' hid h
        refine ⟨k + 1, by simpa using Nat.succ_lt_succ hk, s', p', ?_, ?_, hlook, hstep⟩
        · simpa using hget
        · simp only [List.take_succ_cons]
          unfold update_descriptions
          rw [hl]
          dsimp only
          rw [hu]
          exact hrun
      | updated q =>
        obtain ⟨k, hk, s', p', hget, hrun, hlook, hstep⟩ := ih _ store' s1 s'' hid h
        refine ⟨k + 1, by simpa using Nat.succ_lt_succ hk, s', p', ?_, ?_, hlook, hstep⟩
        · simpa using hget
        · simp only [List.take_succ_cons]
          unfold update_descriptions
          rw [hl]
          dsimp only
          rw [hu]
          exact hrun
      | rateLimited =>
        simp only [Prod.mk.injEq, RunExit.haltedAt.injEq] at h
        obtain ⟨hst, hs, hide⟩ := h
        subst hst hs hide
        exact ⟨0, by simp, s, p, by simp, by simp [update_descriptions], hl, hu⟩
      | parseError =>
        simp only [Prod.mk.injEq] at h
        exact absurd h.2.2 (by simp)

set_option maxHeartbeats 1600000 in
/-- Helper for C3: `fill_missing_fields` never overwrites a present field. -/
theorem fm_preserves_fields (f : FMFetch) (dl : Option String) (icon : Bool)
    (p q : Plugin) (h : (fill_missing_one f dl icon p).1 = .updated q) :
    (p.name.isSome → q.name = p.name) ∧
    (p.author.isSome → q.author = p.author) ∧
    (p.download_url.isSome → q.download_url = p.download_url) ∧
    (p.description.isSome → q.description = p.description) := by
  unfold fill_missing_one at h
  try simp only [] at h
  cases dl
  all_goals repeat' split at h
  all_goals try simp at h
  all_goals try subst h
  all_goals simp_all

/-- Helper for C3: `update_description` only ever writes the
description field. -/
theorem ud_updated_preserves (cfg : Config) (net : Nat → Response)
    (p q : Plugin) (s s' : EngineState)
    (h : update_description cfg net p s = (.updated q, s')) :
    q.repository = p.repository ∧ q.name = p.name ∧ q.author = p.author ∧
    q.download_url = p.download_url := by
  unfold update_description doFetch at h
  try simp only [] at h
  repeat' split at h
  all_goals try simp at h
  all_goals obtain ⟨hq, -⟩ := h
  all_goals subst hq
  all_goals simp

/-- In skip mode an already-described entry is returned untouched:
helper for C3. -/
theorem ud_skip_mode (cfg : Config) (net : Nat → Response) (p : Plugin)
    (s : EngineState) (hsk : cfg.skip_update = true)
    (hdesc : p.description.isSome = true) :
    (update_description cfg net p s).1 = .noChange := by
  unfold update_description
  simp [hsk, hdesc]

/-- The legacy wait-and-retry loop performs one 300-second wait per
rate-limit signal and exits with the first non-rate-limit status, for
any number `n` of consecutive rate-limit signals: helper for C4. -/
theorem legacy_retry_replicate (n c : Nat) (rest : List Nat) (hc : c ≠ 403) :
    legacy_retry true (List.replicate n 403 ++ c :: rest) = (some c, n) := by
  induction n with
  | zero => simp [legacy_retry, hc]
  | succ m ih => simp [List.replicate_succ, legacy_retry, ih]

/-! ## The claims -/

/-- C1 counterexample: fail-fast run over `a, b, c` where the endpoint
rate-limits the second fetch. The run halts at `b` with the update for
`a` applied — but `b` IS counted as failed (`failed = 1`), refuting the
claim that the halted identifier is counted neither as succeeded nor as
failed. -/
theorem C1_counterexample :
    (update_descriptions ⟨false, false⟩ exNet ["a", "b", "c"] exStore initState).2.2 =
      .haltedAt "b" ∧
    (update_descriptions ⟨false, false⟩ exNet ["a", "b", "c"] exStore initState).2.1.stats.succeeded = 1 ∧
    ¬ ((update_descriptions ⟨false, false⟩ exNet ["a", "b", "c"] exStore initState).2.1.stats.failed = 0) ∧
    (update_descriptions ⟨false, false⟩ exNet ["a", "b", "c"] exStore initState).2.1.stats.failed = 1 := by
  refine ⟨by decide, by decide, by decide, by decide⟩

/-- C1 (amended): in fail-fast configuration, a run halted by the
rate-limit status on the (k+1)-th identifier returns exactly the store
produced by completing the first k identifiers (in order), reports the
(k+1)-th identifier as halted-at, and counts the (k+1)-th identifier as
performed and as failed — not as succeeded. -/
theorem C1_halt_keeps_applied_updates (cfg : Config) (net : Nat → Response)
    (ids : List String) (store store' : Store) (s s'' : EngineState) (hid : String)
    (_hff : cfg.wait_on_rate_limit = false)
    (hrun : update_descriptions cfg net ids store s = (store', s'', .haltedAt hid)) :
    ∃ (k : Nat) (hk : k < ids.length) (s' : EngineState),
      hid = ids.get ⟨k, hk⟩ ∧
      update_descriptions cfg net (ids.take k) store s = (store', s', .completed) ∧
      s''.stats.performed = s'.stats.performed + 1 ∧
      s''.stats.failed = s'.stats.failed + 1 ∧
      s''.stats.succeeded = s'.stats.succeeded := by
  obtain ⟨k, hk, s', p, hget, hdone, hlook, hstep⟩ :=
    run_halt_decomp cfg net ids store store' s s'' hid hrun
  have c := ud_counts cfg net p s'
  rw [hstep] at c
  dsimp at c
  exact ⟨k, hk, s', hget, hdone, c.1, (c.2.2.2 rfl).1, (c.2.2.2 rfl).2⟩

/-- Witness for the amended C1 at the concrete scenario (k = 1). -/
theorem C1_halt_keeps_applied_updates_witness :
    ∃ (k : Nat) (hk : k < (["a", "b", "c"] : List String).length) (s' : EngineState),
      "b" = (["a", "b", "c"] : List String).get ⟨k, hk⟩ ∧
      update_descriptions ⟨false, false⟩ exNet ((["a", "b", "c"] : List String).take k) exStore initState =
        ((update_descriptions ⟨false, false⟩ exNet ["a", "b", "c"] exStore initState).1, s', .completed) ∧
      (update_descriptions ⟨false, false⟩ exNet ["a", "b", "c"] exStore initState).2.1.stats.performed =
        s'.stats.performed + 1 ∧
      (update_descriptions ⟨false, false⟩ exNet ["a", "b", "c"] exStore initState).2.1.stats.failed =
        s'.stats.failed + 1 ∧
      (update_descriptions ⟨false, false⟩ exNet ["a", "b", "c"] exStore initState).2.1.stats.succeeded =
        s'.stats.succeeded :=
  C1_halt_keeps_applied_updates ⟨false, false⟩ exNet ["a", "b", "c"] exStore
    (update_descriptions ⟨false, false⟩ exNet ["a", "b", "c"] exStore initState).1
    initState
    (update_descriptions ⟨false, false⟩ exNet ["a", "b", "c"] exStore initState).2.1
    "b" rfl (by decide)

/-- C2 counterexample: in skip mode (`--skip-update`), an entry with no
repository field but an existing description is counted as `skipped`,
not `invalid_repo`: the run leaves `invalid_repo = 0`, refuting
"the invalid_repo counter is incremented exactly once for that entry". -/
theorem C2_counterexample :
    update_descriptions ⟨true, false⟩ exNet ["p"] [("p", exPlugDesc)] initState =
      ([("p", exPlugDesc)], ⟨⟨0, 0, 1, 1, 0⟩, 0, 0, []⟩, .completed) ∧
    ¬ ((update_descriptions ⟨true, false⟩ exNet ["p"] [("p", exPlugDesc)]
        initState).2.1.stats.invalid_repo = 1) := by
  refine ⟨by decide, by decide⟩

/-- C2 (amended): an entry whose repository field is absent or lacks a
recognized host reference is left byte-for-byte unchanged, and — unless
skip mode is set and the entry already has a description, in which case
it is counted as `skipped` instead — `invalid_repo` is incremented
exactly once for it, with no fetch issued and no other outcome counter
touched. -/
theorem C2_invalid_repo_counted (cfg : Config) (net : Nat → Response)
    (p : Plugin) (s : EngineState)
    (hinv : repoInvalid p.repository = true)
    (hns : (cfg.skip_update && p.description.isSome) = false) :
    (update_description cfg net p s).1 = .noChange ∧
    (update_description cfg net p s).2.stats.invalid_repo = s.stats.invalid_repo + 1 ∧
    (update_description cfg net p s).2.stats.skipped = s.stats.skipped ∧
    (update_description cfg net p s).2.stats.failed = s.stats.failed ∧
    (update_description cfg net p s).2.stats.succeeded = s.stats.succeeded ∧
    (update_description cfg net p s).2.calls = s.calls ∧
    (update_description cfg net p s).2.reqs = s.reqs ∧
    (∀ (id : String) (rest : List String) (store : Store),
      store.lookup id = some p →
      update_descriptions cfg net (id :: rest) store s =
        update_descriptions cfg net rest store (update_description cfg net p s).2) := by
  have hstep : update_description cfg net p s =
      (.noChange,
        ⟨⟨s.stats.failed, s.stats.invalid_repo + 1, s.stats.performed + 1,
          s.stats.skipped, s.stats.succeeded⟩, s.calls, s.waitSeconds, s.reqs⟩) := by
    unfold update_description
    simp [hns, hinv]
  rw [hstep]
  refine ⟨rfl, rfl, rfl, rfl, rfl, rfl, rfl, ?_⟩
  intro id rest store hlook
  conv_lhs => unfold update_descriptions
  rw [hlook]
  dsimp only
  rw [hstep]

/-- Witness for the amended C2: one skip-free run over the
description-free, repository-free entry bumps `invalid_repo` to 1 and
issues no fetch. -/
theorem C2_invalid_repo_counted_witness :
    (update_description ⟨false, false⟩ exNet ⟨none, none, none, none, none⟩ initState).1 = .noChange ∧
    (update_description ⟨false, false⟩ exNet ⟨none, none, none, none, none⟩ initState).2.stats.invalid_repo =
      initState.stats.invalid_repo + 1 := by
  have h := C2_invalid_repo_counted ⟨false, false⟩ exNet ⟨none, none, none, none, none⟩
    initState (by decide) (by decide)
  exact ⟨h.1, h.2.1⟩

/-- C3: enrichment never removes or overwrites an existing `name`,
`author` or `download_url`; `fill_missing_fields` also never overwrites
an existing description, and `update_description` leaves an existing
description alone exactly when forced refresh is not requested (the
`--skip-update` mode): in that mode the record is skipped unchanged.
Only the forced-refresh mode (no `--skip-update`) may overwrite a
description. -/
theorem C3_no_field_removal :
    (∀ (f : FMFetch) (dl : Option String) (icon : Bool) (p q : Plugin),
      (fill_missing_one f dl icon p).1 = .updated q →
      (p.name.isSome → q.name = p.name) ∧
      (p.author.isSome → q.author = p.author) ∧
      (p.download_url.isSome → q.download_url = p.download_url) ∧
      (p.description.isSome → q.description = p.description)) ∧
    (∀ (cfg : Config) (net : Nat → Response) (p q : Plugin) (s s' : EngineState),
      update_description cfg net p s = (.updated q, s') →
      q.repository = p.repository ∧ q.name = p.name ∧ q.author = p.author ∧
      q.download_url = p.download_url) ∧
    (∀ (cfg : Config) (net : Nat → Response) (p : Plugin) (s : EngineState),
      cfg.skip_update = true → p.description.isSome = true →
      (update_description cfg net p s).1 = .noChange) := by
  exact ⟨fm_preserves_fields, ud_updated_preserves, ud_skip_mode⟩

/-- Witness for C3 at concrete inputs: a present name survives the fill
(part 1), `update_description` only writes the description (part 2), and
skip mode leaves a described entry untouched (part 3). -/
theorem C3_no_field_removal_witness :
    ((⟨some "https://github.com/x/a", some "N", none, none, none⟩ : Plugin).name.isSome →
      (⟨some "https://github.com/x/a", some "N", some "x", some "d", none⟩ : Plugin).name =
        (⟨some "https://github.com/x/a", some "N", none, none, none⟩ : Plugin).name) ∧
    ((⟨some "https://github.com/x/a", none, none, some "d", none⟩ : Plugin).repository =
        exPlugA.repository ∧
      (⟨some "https://github.com/x/a", none, none, some "d", none⟩ : Plugin).name = exPlugA.name ∧
      (⟨some "https://github.com/x/a", none, none, some "d", none⟩ : Plugin).author = exPlugA.author ∧
      (⟨some "https://github.com/x/a", none, none, some "d", none⟩ : Plugin).download_url =
        exPlugA.download_url) ∧
    ((update_description ⟨true, false⟩ exNet exPlugDesc initState).1 = .noChange) :=
  ⟨(C3_no_field_removal.1 (.info ⟨false, "y", "x", some "d"⟩) none false
      ⟨some "https://github.com/x/a", some "N", none, none, none⟩
      ⟨some "https://github.com/x/a", some "N", some "x", some "d", none⟩ (by decide)).1,
   C3_no_field_removal.2.1 ⟨false, false⟩ exNet exPlugA
      ⟨some "https://github.com/x/a", none, none, some "d", none⟩ initState
      (update_description ⟨false, false⟩ exNet exPlugA initState).2 (by decide),
   C3_no_field_removal.2.2 ⟨true, false⟩ exNet exPlugDesc initState rfl (by decide)⟩

/-- C4 counterexample: with wait-and-retry configured and the endpoint
returning the rate-limit status on both the original request and the
re-issued one, `update_descriptions.py` sleeps only once (300 seconds,
not 600) and then aborts the run (`rateLimited`, `failed = 1`) instead
of entering the cooldown again — refuting the claim of unbounded
retries on every repeated rate-limit signal. -/
theorem C4_counterexample :
    update_description ⟨false, true⟩ exNet403 exPlugA initState =
      (.rateLimited, ⟨⟨1, 0, 1, 0, 0⟩, 2, 300, ["x/a", "x/a"]⟩) ∧
    ¬ ((update_description ⟨false, true⟩ exNet403 exPlugA initState).2.waitSeconds = 600) := by
  refine ⟨by decide, by decide⟩

/-- C4 (amended): in `update_descriptions.py`, when the metadata fetch
returns the rate-limit status and wait-and-retry is configured, the
engine blocks for one fixed 300-second cooldown and re-issues the
identical request once; on a successful response it resumes normal
processing, but if the re-issued request is again rate-limited the
record is counted failed and the run aborts. Only the legacy
`UpdateDescriptions.py` retry loop re-enters the cooldown on every
repeated rate-limit signal with no bound on the number of retries. -/
theorem C4_wait_and_retry (cfg : Config) (net : Nat → Response) (p : Plugin)
    (s : EngineState)
    (hw : cfg.wait_on_rate_limit = true)
    (hns : (cfg.skip_update && p.description.isSome) = false)
    (hrepo : repoInvalid p.repository = false)
    (h403 : (net s.calls).status_code = 403) :
    ((update_description cfg net p s).2.waitSeconds = s.waitSeconds + 300) ∧
    ((update_description cfg net p s).2.reqs =
      s.reqs ++ [ownerRepoOf (p.repository.getD ""), ownerRepoOf (p.repository.getD "")]) ∧
    ((net (s.calls + 1)).status_code = 403 →
      (update_description cfg net p s).1 = .rateLimited) ∧
    (∀ desc : Option String,
      200 ≤ (net (s.calls + 1)).status_code → (net (s.calls + 1)).status_code < 300 →
      (net (s.calls + 1)).body = .parsed false desc →
      (update_description cfg net p s).1 =
        .updated { p with description := some (desc.getD "") }) ∧
    (∀ (n c : Nat) (rest : List Nat), c ≠ 403 →
      legacy_retry true (List.replicate n 403 ++ c :: rest) = (some c, n)) := by
  refine ⟨?_, ?_, ?_, ?_, fun n c rest hc => legacy_retry_replicate n c rest hc⟩
  · unfold update_description doFetch
    simp [hns, hrepo, hw, h403]
    repeat' split
    all_goals simp
  · unfold update_description doFetch
    simp [hns, hrepo, hw, h403]
    repeat' split
    all_goals simp
  · intro h2
    unfold update_description doFetch
    simp [hns, hrepo, hw, h403, h2]
  · intro desc hlo hhi hbody
    have hnot : ¬((net (s.calls + 1)).status_code < 200 ∨ 300 ≤ (net (s.calls + 1)).status_code) := by
      omega
    unfold update_description doFetch
    simp [hns, hrepo, hw, h403, hnot, hbody]

/-- Witness for the amended C4: concrete doubly-rate-limited record
(one 300-second wait, then abort) and a concrete legacy trace with three
rate-limit signals and three waits. -/
theorem C4_wait_and_retry_witness :
    ((update_description ⟨false, true⟩ exNet403 exPlugA initState).2.waitSeconds =
      initState.waitSeconds + 300) ∧
    ((update_description ⟨false, true⟩ exNet403 exPlugA initState).1 = .rateLimited) ∧
    legacy_retry true (List.replicate 3 403 ++ 200 :: []) = (some 200, 3) := by
  have h := C4_wait_and_retry ⟨false, true⟩ exNet403 exPlugA initState rfl (by decide)
    (by decide) (by decide)
  exact ⟨h.1, h.2.2.1 (by decide), h.2.2.2.2 3 200 [] (by decide)⟩

/-- C5 counterexample, both directions. An entry with a usable
repository, name, author and description present and the icon cached,
but `download_url` absent, IS fetched by the code although the spec's
rule (which omits the download URL) says skip; and with force-refresh
requested on a fully-populated entry the spec's rule says fetch although
the code (which has no force-refresh input) does not fetch. -/
theorem C5_counterexample :
    (fill_missing_one (.info ⟨false, "y", "x", some "d"⟩) none true exPlugFull).2 = true ∧
    spec_needs_fetch false true exPlugFull = false ∧
    spec_needs_fetch true true exPlugAll = true ∧
    (fill_missing_one (.info ⟨false, "y", "x", some "d"⟩) none true exPlugAll).2 = false := by
  refine ⟨by decide, by decide, by decide, by decide⟩

/-- C5 (amended): `fill_missing_fields` fetches for a record exactly
when it has a usable repository reference and at least one of name,
author, download URL, description, or the cached icon is absent; there
is no force-refresh input to this decision. A record with a usable
repository and none of these missing is skipped without any fetch. -/
theorem C5_needs_fetch_rule (f : FMFetch) (dl : Option String) (icon : Bool)
    (p : Plugin) :
    (fill_missing_one f dl icon p).2 =
      (!repoInvalid p.repository &&
        (p.name.isNone || p.author.isNone || p.download_url.isNone || !icon ||
          p.description.isNone)) ∧
    ((fill_missing_one f dl icon p).2 = false →
      (fill_missing_one f dl icon p).1 = .unchanged) := by
  unfold fill_missing_one
  try simp only []
  repeat' split
  all_goals try simp_all
  all_goals
    by_cases hn : p.name = none <;> by_cases ha : p.author = none <;>
      by_cases hd : p.download_url = none <;> by_cases hi : icon = true <;>
      simp_all [Option.isSome_iff_ne_none]

/-- Witness for the amended C5 at a concrete fully-populated record. -/
theorem C5_needs_fetch_rule_witness :
    (fill_missing_one (.info ⟨false, "y", "x", some "d"⟩) none true exPlugAll).2 =
      (!repoInvalid exPlugAll.repository &&
        (exPlugAll.name.isNone || exPlugAll.author.isNone || exPlugAll.download_url.isNone ||
          !true || exPlugAll.description.isNone)) ∧
    (fill_missing_one (.info ⟨false, "y", "x", some "d"⟩) none true exPlugAll).1 = .unchanged := by
  have h := C5_needs_fetch_rule (.info ⟨false, "y", "x", some "d"⟩) none true exPlugAll
  exact ⟨h.1, h.2 (by decide)⟩

/-- C6: per entry and per run, `update_description` issues no metadata
fetch when it skips (skip mode or invalid repository), and otherwise
issues exactly one fetch — except that a rate-limit answer under
wait-and-retry re-issues the identical request (same owner/repo key)
exactly once more. -/
theorem C6_at_most_one_fetch (cfg : Config) (net : Nat → Response) (p : Plugin)
    (s : EngineState) :
    ((cfg.skip_update && p.description.isSome) = true →
      (update_description cfg net p s).2.reqs = s.reqs) ∧
    ((cfg.skip_update && p.description.isSome) = false →
      repoInvalid p.repository = true →
      (update_description cfg net p s).2.reqs = s.reqs) ∧
    ((cfg.skip_update && p.description.isSome) = false →
      repoInvalid p.repository = false →
      ((update_description cfg net p s).2.reqs =
          s.reqs ++ [ownerRepoOf (p.repository.getD "")] ∧
        ¬((net s.calls).status_code = 403 ∧ cfg.wait_on_rate_limit = true)) ∨
      ((update_description cfg net p s).2.reqs =
          s.reqs ++ [ownerRepoOf (p.repository.getD ""),
            ownerRepoOf (p.repository.getD "")] ∧
        (net s.calls).status_code = 403 ∧ cfg.wait_on_rate_limit = true)) := by
  refine ⟨?_, ?_, ?_⟩
  · intro h
    unfold update_description
    simp [h]
  · intro h1 h2
    unfold update_description
    simp [h1, h2]
  · intro h1 h2
    cases hcond : ((net s.calls).status_code == 403 && cfg.wait_on_rate_limit) with
    | false =>
      left
      constructor
      · unfold update_description doFetch
        simp [h1, h2, hcond]
        repeat' split
        all_goals simp
      · intro hab
        rw [hab.1, hab.2] at hcond
        simp at hcond
    | true =>
      right
      have hp : (net s.calls).status_code = 403 ∧ cfg.wait_on_rate_limit = true := by
        simpa using hcond
      refine ⟨?_, hp.1, hp.2⟩
      unfold update_description doFetch
      simp [h1, h2, hcond]
      repeat' split
      all_goals simp

/-- Witness for C6: the concrete successful first record issues exactly
one fetch, keyed by its owner/repo reference. -/
theorem C6_at_most_one_fetch_witness :
    ((update_description ⟨false, false⟩ exNet exPlugA initState).2.reqs =
        initState.reqs ++ [ownerRepoOf (exPlugA.repository.getD "")] ∧
      ¬((exNet initState.calls).status_code = 403 ∧ (⟨false, false⟩ : Config).wait_on_rate_limit = true)) ∨
    ((update_description ⟨false, false⟩ exNet exPlugA initState).2.reqs =
        initState.reqs ++ [ownerRepoOf (exPlugA.repository.getD ""),
          ownerRepoOf (exPlugA.repository.getD "")] ∧
      (exNet initState.calls).status_code = 403 ∧ (⟨false, false⟩ : Config).wait_on_rate_limit = true) :=
  (C6_at_most_one_fetch ⟨false, false⟩ exNet exPlugA initState).2.2 (by decide) (by decide)

/-- C7 counterexample: in the legacy `UpdateDescriptions.py`, resuming
from an identifier `z` that is not in the store is silently ignored —
the argument loop has no final else — and a full run over all
identifiers is attempted instead of reporting an input error and
attempting no run. -/
theorem C7_counterexample :
    legacy_plan ["a", "b"] ["--start-from", "z"] true false [] = .plan ["a", "b"] ∧
    ¬ (legacy_plan ["a", "b"] ["--start-from", "z"] true false [] = .plan []) := by
  refine ⟨by decide, by decide⟩

/-- C7 (amended): in `update_descriptions.py`, resume-from-X runs over
exactly the identifiers from X's (first) position in store order through
the end, in that order, and a resume identifier absent from the store is
an input error (`exit(1)`) with no run attempted; in the legacy
`UpdateDescriptions.py`, an absent resume identifier (that is not itself
an option flag) is silently ignored and a full run over all identifiers
proceeds. -/
theorem C7_resume_selection :
    (∀ (all_ids : List String) (x : String),
      all_ids.contains x = true →
      (toLowerStr x == "--skip-update") = false →
      (toLowerStr x == "--wait-on-rate-limit") = false →
      (toLowerStr x == "--start-from") = false →
      select_ids all_ids ["--start-from", x] =
        .run ⟨false, false⟩ (all_ids.drop (all_ids.findIdx (fun a => a == x)))) ∧
    (∀ (all_ids : List String) (x : String),
      all_ids.contains x = false →
      ∃ msg, select_ids all_ids ["--start-from", x] = .inputError msg) ∧
    (∀ (keys : List String) (x : String),
      keys.contains x = false →
      (x == "--help") = false → (x == "-h") = false →
      (x == "--skip-update") = false → (x == "--wait-on-rate-limit") = false →
      (x == "--log") = false →
      strStartsWith x "--start-from" = false →
      strStartsWith x "--" = false → strStartsWith x "-" = false →
      legacy_plan keys ["--start-from", x] true false [] = .plan keys) := by
  have e1 : (toLowerStr "--start-from" == "--skip-update") = false := by decide
  have e2 : (toLowerStr "--start-from" == "--wait-on-rate-limit") = false := by decide
  have e3 : (toLowerStr "--start-from" == "--start-from") = true := by decide
  refine ⟨?_, ?_, ?_⟩
  · intro all_ids x hc h1 h2 h3
    have hmem : x ∈ all_ids := by simpa using hc
    have hlt : all_ids.findIdx (fun a => a == x) < all_ids.length := by
      apply List.findIdx_lt_length_of_exists
      simpa using hc
    have hne : ¬ (all_ids.drop (all_ids.findIdx (fun a => a == x)) = []) := by
      intro h0
      rw [List.drop_eq_nil_iff] at h0
      omega
    simp [select_ids, parse_args, e1, e2, e3, h1, h2, h3, hmem, hne]
  · intro all_ids x hc
    by_cases b1 : (toLowerStr x == "--skip-update") = true
    · exact ⟨"No plugins to be updated", by
        simp [select_ids, parse_args, e1, e2, e3, b1]⟩
    · by_cases b2 : (toLowerStr x == "--wait-on-rate-limit") = true
      · exact ⟨"No plugins to be updated", by
          simp [select_ids, parse_args, e1, e2, e3, b1, b2]⟩
      · by_cases b3 : (toLowerStr x == "--start-from") = true
        · exact ⟨"No plugins to be updated", by
            simp [select_ids, parse_args, e1, e2, e3, b1, b2, b3]⟩
        · refine ⟨"Unrecognised argument", ?_⟩
          have hmem : ¬ (x ∈ all_ids) := by simpa using hc
          simp [select_ids, parse_args, e1, e2, e3, b1, b2, b3, hmem]
  · intro keys x hc q1 q2 q3 q4 q5 q6 q7 q8
    have d1 : ("--start-from" == "--help") = false := by decide
    have d2 : ("--start-from" == "-h") = false := by decide
    have d3 : ("--start-from" == "--skip-update") = false := by decide
    have d4 : ("--start-from" == "--wait-on-rate-limit") = false := by decide
    have d5 : ("--start-from" == "--log") = false := by decide
    have d6 : strStartsWith "--start-from" "--start-from" = true := by decide
    have hmem : ¬ (x ∈ keys) := by simpa using hc
    simp [legacy_plan, d1, d2, d3, d4, d5, d6, q1, q2, q3, q4, q5, q6, q7, q8, hmem]

/-- Witness for the amended C7: resuming from `b` in store `a, b` runs
over the suffix from `b`; resuming from absent `z` is an input error in
the primary script and a silently-run full update in the legacy one. -/
theorem C7_resume_selection_witness :
    select_ids ["a", "b"] ["--start-from", "b"] =
      .run ⟨false, false⟩ ((["a", "b"] : List String).drop
        ((["a", "b"] : List String).findIdx (fun a => a == "b"))) ∧
    (∃ msg, select_ids ["a", "b"] ["--start-from", "z"] = .inputError msg) ∧
    legacy_plan ["a", "b"] ["--start-from", "z"] true false [] = .plan ["a", "b"] :=
  ⟨C7_resume_selection.1 ["a", "b"] "b" (by decide) (by decide) (by decide) (by decide),
   C7_resume_selection.2.1 ["a", "b"] "z" (by decide),
   C7_resume_selection.2.2 ["a", "b"] "z" (by decide) (by decide) (by decide) (by decide)
     (by decide) (by decide) (by decide) (by decide) (by decide)⟩

/-- C8 counterexample: a success response whose body fails JSON parsing
raises an exception that is not caught by the engine loop — the run
crashes at the first identifier (the second is never examined) and
`failed` stays 0, refuting "increment failed and continue; no
per-record fault crashes the run". -/
theorem C8_counterexample :
    (update_descriptions ⟨false, false⟩ exNetBadBody ["a", "b"] exStore initState).2.2 =
      .crashed ∧
    (update_descriptions ⟨false, false⟩ exNetBadBody ["a", "b"] exStore initState).2.1.stats.failed = 0 ∧
    (update_descriptions ⟨false, false⟩ exNetBadBody ["a", "b"] exStore initState).2.1.stats.performed = 1 := by
  refine ⟨by decide, by decide, by decide⟩

/-- C8 (amended): in fail-fast mode, a fetch response with a non-success
status other than the rate-limit status, or a success status whose body
parses to a JSON-falsy value, increments `failed` and the loop continues
with the next identifier; but a success status whose body is not valid
JSON raises an uncaught exception: `failed` is not incremented and the
whole run crashes instead of continuing. -/
theorem C8_record_failures (cfg : Config) (net : Nat → Response) (p : Plugin)
    (s : EngineState)
    (hw : cfg.wait_on_rate_limit = false)
    (hns : (cfg.skip_update && p.description.isSome) = false)
    (hrepo : repoInvalid p.repository = false) :
    ((net s.calls).status_code < 200 ∨ 300 ≤ (net s.calls).status_code →
      (net s.calls).status_code ≠ 403 →
      (update_description cfg net p s).1 = .noChange ∧
      (update_description cfg net p s).2.stats.failed = s.stats.failed + 1) ∧
    (∀ desc : Option String,
      200 ≤ (net s.calls).status_code → (net s.calls).status_code < 300 →
      (net s.calls).body = .parsed true desc →
      (update_description cfg net p s).1 = .noChange ∧
      (update_description cfg net p s).2.stats.failed = s.stats.failed + 1) ∧
    (200 ≤ (net s.calls).status_code → (net s.calls).status_code < 300 →
      (net s.calls).body = .unparseable →
      (update_description cfg net p s).1 = .parseError ∧
      (update_description cfg net p s).2.stats.failed = s.stats.failed) ∧
    (∀ (id : String) (rest : List String) (store : Store),
      store.lookup id = some p →
      ((update_description cfg net p s).1 = .noChange →
        update_descriptions cfg net (id :: rest) store s =
          update_descriptions cfg net rest store (update_description cfg net p s).2) ∧
      ((update_description cfg net p s).1 = .parseError →
        update_descriptions cfg net (id :: rest) store s =
          (store, (update_description cfg net p s).2, .crashed))) := by
  refine ⟨?_, ?_, ?_, ?_⟩
  · intro hbad h403
    have hb : ((net s.calls).status_code == 403) = false := by simp [h403]
    unfold update_description doFetch
    simp [hns, hrepo, hw, hb, hbad]
  · intro desc hlo hhi hbody
    have hok : ¬ ((net s.calls).status_code < 200 ∨ 300 ≤ (net s.calls).status_code) := by
      omega
    unfold update_description doFetch
    simp [hns, hrepo, hw, hok, hbody]
  · intro hlo hhi hbody
    have hok : ¬ ((net s.calls).status_code < 200 ∨ 300 ≤ (net s.calls).status_code) := by
      omega
    unfold update_description doFetch
    simp [hns, hrepo, hw, hok, hbody]
  · intro id rest store hlook
    constructor
    · intro hnc
      rcases hu : update_description cfg net p s with ⟨r, s1⟩
      rw [hu] at hnc
      dsimp at hnc
      subst hnc
      conv_lhs => unfold update_descriptions
      rw [hlook]
      dsimp only
      rw [hu]
    · intro hpe
      rcases hu : update_description cfg net p s with ⟨r, s1⟩
      rw [hu] at hpe
      dsimp at hpe
      subst hpe
      conv_lhs => unfold update_descriptions
      rw [hlook]
      dsimp only
      rw [hu]

/-- Witness for the amended C8: a 404 increments `failed` and returns
control to the loop; an unparseable success body escapes as an
exception with `failed` untouched. -/
theorem C8_record_failures_witness :
    ((update_description ⟨false, false⟩ exNet404 exPlugA initState).1 = .noChange ∧
      (update_description ⟨false, false⟩ exNet404 exPlugA initState).2.stats.failed =
        initState.stats.failed + 1) ∧
    ((update_description ⟨false, false⟩ exNetBadBody exPlugA initState).1 = .parseError ∧
      (update_description ⟨false, false⟩ exNetBadBody exPlugA initState).2.stats.failed =
        initState.stats.failed) :=
  ⟨(C8_record_failures ⟨false, false⟩ exNet404 exPlugA initState rfl (by decide)
      (by decide)).1 (by decide) (by decide),
   (C8_record_failures ⟨false, false⟩ exNetBadBody exPlugA initState rfl (by decide)
      (by decide)).2.2.1 (by decide) (by decide) (by decide)⟩

/-- C9: for every run that terminates normally or by rate-limit abort
(no escaped exception), the `performed` counter equals
`skipped + invalid_repo + failed + succeeded`; and the identifier whose
processing raises the rate-limit abort is itself counted both as
performed and as failed. -/
theorem C9_perf_eq_bucket_sum (cfg : Config) (net : Nat → Response)
    (ids : List String) (store store' : Store) (s' : EngineState) (e : RunExit)
    (hrun : update_descriptions cfg net ids store initState = (store', s', e))
    (hnc : e ≠ .crashed) :
    s'.stats.performed = statsTotal s'.stats ∧
    (∀ (p : Plugin) (t t' : EngineState),
      update_description cfg net p t = (.rateLimited, t') →
      t'.stats.performed = t.stats.performed + 1 ∧
      t'.stats.failed = t.stats.failed + 1) := by
  constructor
  · exact run_counts cfg net ids store initState store' s' e hrun hnc rfl
  · intro p t t' h
    have c := ud_counts cfg net p t
    rw [h] at c
    dsimp at c
    exact ⟨c.1, (c.2.2.2 rfl).1⟩

/-- Witness for C9 at the concrete rate-limited scenario. -/
theorem C9_perf_eq_bucket_sum_witness :
    (update_descriptions ⟨false, false⟩ exNet ["a", "b", "c"] exStore initState).2.1.stats.performed =
      statsTotal (update_descriptions ⟨false, false⟩ exNet ["a", "b", "c"] exStore initState).2.1.stats := by
  have h := C9_perf_eq_bucket_sum ⟨false, false⟩ exNet ["a", "b", "c"] exStore
    (update_descriptions ⟨false, false⟩ exNet ["a", "b", "c"] exStore initState).1
    (update_descriptions ⟨false, false⟩ exNet ["a", "b", "c"] exStore initState).2.1
    (update_descriptions ⟨false, false⟩ exNet ["a", "b", "c"] exStore initState).2.2
    rfl (by decide)
  exact h.1

/-- C10: the final report divides `(succeeded + skipped)` by `performed`;
a run over an empty identifier sequence performs zero identifiers, so the
reporting step is a division by zero (`none`) rather than a printed
summary — and in general the ratio is undefined exactly when
`performed = 0`. -/
theorem C10_empty_run_ratio_undefined :
    (∀ (cfg : Config) (net : Nat → Response) (store : Store),
      update_descriptions cfg net [] store initState = (store, initState, .completed)) ∧
    initState.stats.performed = 0 ∧
    summary_ratio initState.stats = none ∧
    (∀ st : Stats, summary_ratio st = none ↔ st.performed = 0) := by
  refine ⟨fun cfg net store => rfl, rfl, rfl, fun st => ?_⟩
  unfold summary_ratio
  split
  · simp [*]
  · simp [*]
